import Mathlib

/-!
Verification of the laser-puzzle solver (`src/solver.rs`).

A shallow embedding of the solver module of the laser-puzzle repository.
The knowledge grid and the three inference rules are translated directly
from `src/solver.rs`.  The collaborator modules (`i8vec2`, `laser`,
`observation`, `atom_grid`) are not part of the published sources, so the
small interface the solver consumes from them is modelled from the spec
(each such definition carries a `Modelled from the spec:` doc comment).

Rust `panic!` is modelled by `Except.error`; the mutable grid is threaded
explicitly through the rules.
-/

set_option maxHeartbeats 1000000

namespace LaserPuzzle

/-- Modelled from the spec: grid side length `N`, a fixed constant
(`crate::atom_grid::GRID_SIZE`, not in the published sources); the spec
fixes it to 8 ("fixed constant, e.g. 8", "on an `N=8` grid"). -/
def GRID_SIZE : Nat := 8

/-- Modelled from the spec: the coordinate type (`crate::i8vec2::I8Vec2`,
not in the published sources): "a pair of signed small integers `(x, y)`"
with component-wise addition. -/
structure I8Vec2 where
  x : Int
  y : Int
deriving DecidableEq, Repr

/-- Modelled from the spec: coordinate constructor. -/
def I8Vec2.new (x y : Int) : I8Vec2 := ⟨x, y⟩

/-- Modelled from the spec: component-wise addition of coordinates. -/
instance : Add I8Vec2 := ⟨fun a b => ⟨a.x + b.x, a.y + b.y⟩⟩

/-- Modelled from the spec: the in-grid predicate — "in-grid iff
`0 ≤ x < N` and `0 ≤ y < N` for grid side length `N`". -/
def I8Vec2.in_grid (v : I8Vec2) : Bool :=
  decide (0 ≤ v.x ∧ v.x < (GRID_SIZE : Int) ∧ 0 ≤ v.y ∧ v.y < (GRID_SIZE : Int))

/-- Cell knowledge, from `solver.rs` (`enum GridKnowledge`). -/
inductive GridKnowledge where
  | Unknown
  | Atom
  | Empty
deriving DecidableEq, Repr

/-- `impl Default for GridKnowledge`: the default cell value is `Unknown`. -/
def GridKnowledge.default : GridKnowledge := GridKnowledge.Unknown

/-- The knowledge grid, from `solver.rs` (`struct UncertainGrid`).  The
Rust nested array `[[GridKnowledge; GRID_SIZE]; GRID_SIZE]` indexed by
`usize` is embedded as a function of the two indices; `set_safe` only
ever writes at in-grid indices. -/
structure UncertainGrid where
  atoms : Nat → Nat → GridKnowledge

/-- `#[derive(Default)]` on `UncertainGrid`: every cell starts `Unknown`. -/
def UncertainGrid.default : UncertainGrid := ⟨fun _ _ => GridKnowledge.Unknown⟩

/-- `UncertainGrid::get`: reads `atoms[v.x as usize][v.y as usize]`.
The caller contract (spec §4.1) restricts reads to in-grid coordinates;
the `as usize` index conversion is embedded as `Int.toNat`. -/
def UncertainGrid.get (g : UncertainGrid) (v : I8Vec2) : GridKnowledge :=
  g.atoms v.x.toNat v.y.toNat

/-- `UncertainGrid::set_safe`: panics (here: `Except.error`) on an
`Unknown` argument, silently ignores out-of-grid coordinates, panics on
an inconsistent overwrite, and stores the value otherwise. -/
def UncertainGrid.set_safe (g : UncertainGrid) (v : I8Vec2)
    (knowledge : GridKnowledge) : Except String UncertainGrid :=
  if knowledge = GridKnowledge.Unknown then
    Except.error "Can not update with Unknown"
  else if v.in_grid then
    let previous_knowledge := g.atoms v.x.toNat v.y.toNat
    if previous_knowledge ≠ GridKnowledge.Unknown ∧ previous_knowledge ≠ knowledge then
      Except.error "Updating existing knowledge with inconsistent knowledge"
    else
      Except.ok ⟨fun i j =>
        if i = v.x.toNat ∧ j = v.y.toNat then knowledge else g.atoms i j⟩
  else
    Except.ok g

/-! ## Helper lemmas about the grid -/

/-- The successful write path of `set_safe`, as a total function on grids:
write `k` at `v` when `v` is in-grid, otherwise leave the grid alone. -/
def setRaw (g : UncertainGrid) (v : I8Vec2) (k : GridKnowledge) : UncertainGrid :=
  if v.in_grid then
    ⟨fun i j => if i = v.x.toNat ∧ j = v.y.toNat then k else g.atoms i j⟩
  else g

/-! ## Directions, laser geometry, observations

These collaborator interfaces (`crate::laser`, `crate::observation`) are
not in the published sources; they are modelled from the spec. -/

/-- Modelled from the spec: the four inward travel directions
(`crate::laser::Direction`).  `y` grows downward, as in the rendering. -/
inductive Direction where
  | Up
  | Down
  | Left
  | Right
deriving DecidableEq, Repr

/-- Modelled from the spec: a rotation's unit offset vector
(`Direction::dxy`). -/
def Direction.dxy : Direction → I8Vec2
  | .Up => I8Vec2.new 0 (-1)
  | .Down => I8Vec2.new 0 1
  | .Left => I8Vec2.new (-1) 0
  | .Right => I8Vec2.new 1 0

/-- Modelled from the spec: clockwise rotation of a direction
(`Direction::clockwise`), in screen coordinates with `y` downward. -/
def Direction.clockwise : Direction → Direction
  | .Up => .Right
  | .Right => .Down
  | .Down => .Left
  | .Left => .Up

/-- Modelled from the spec: counter-clockwise rotation of a direction
(`Direction::counter_clockwise`). -/
def Direction.counter_clockwise : Direction → Direction
  | .Up => .Left
  | .Left => .Down
  | .Down => .Right
  | .Right => .Up

/-- Modelled from the spec: a laser tip (`crate::laser::LaserTip`), a
border position together with its inward travel direction. -/
structure LaserTip where
  position : I8Vec2
  direction : Direction

/-- Modelled from the spec: `LaserTip::new(shift, direction)` places the
tip on the border cell just outside the grid identified by the side
(opposite the travel direction) and the shift index along that side. -/
def LaserTip.new (shift : Nat) (direction : Direction) : LaserTip :=
  match direction with
  | .Right => ⟨I8Vec2.new (-1) shift, direction⟩
  | .Left => ⟨I8Vec2.new GRID_SIZE shift, direction⟩
  | .Down => ⟨I8Vec2.new shift (-1), direction⟩
  | .Up => ⟨I8Vec2.new shift GRID_SIZE, direction⟩

/-- Modelled from the spec: `LaserTip::forward` moves the tip one step
along its travel direction; "the first interior grid position the laser
would occupy when moving one step further". -/
def LaserTip.forward (t : LaserTip) : LaserTip :=
  ⟨t.position + t.direction.dxy, t.direction⟩

/-- Modelled from the spec: the outcome classification carried by an
observation — `Reflected`, `Absorbed`, a letter pass-through marker, or
another classification not used by the engine's rules. -/
inductive Observation where
  | reflected
  | absorbed
  | letter (tag : Nat)
  | other
deriving DecidableEq, Repr

/-- Modelled from the spec: the well-known constant `LASER_REFLECTED`. -/
def LASER_REFLECTED : Observation := Observation.reflected

/-- Modelled from the spec: the well-known constant `LASER_ABSORBED`. -/
def LASER_ABSORBED : Observation := Observation.absorbed

/-- Modelled from the spec: the "is this outcome a letter-pass"
classification predicate (`is_letter`). -/
def Observation.is_letter : Observation → Bool
  | .letter _ => true
  | _ => false

/-- Modelled from the spec: the observation set, exposed to the engine as
an ordered sequence of (direction, shift, outcome) triples
(`Observations::iter`). -/
abbrev Observations : Type := List (Direction × Nat × Observation)

/-- Modelled from the spec: `Observations::iter` yields every recorded
observation exactly once, in a stable order. -/
def Observations.iter (o : Observations) : List (Direction × Nat × Observation) := o

/-! ## The three inference rules and `solve` (from `solver.rs`) -/

/-- Loop body of `reflection_is_not_blocked`: a `Reflected` observation
marks its forward interior cell `Empty`. -/
def reflectionStep (grid : UncertainGrid) (t : Direction × Nat × Observation) :
    Except String UncertainGrid :=
  let (direction, shift, obs) := t
  if obs = LASER_REFLECTED then
    let l := LaserTip.new shift direction
    let center := l.forward.position
    grid.set_safe center GridKnowledge.Empty
  else
    Except.ok grid

/-- `reflection_is_not_blocked`: one pass of the reflection rule over the
whole observation set. -/
def reflection_is_not_blocked (grid : UncertainGrid) (observations : Observations) :
    Except String UncertainGrid :=
  observations.iter.foldlM reflectionStep grid

/-- Loop body of `absorption_with_one_free_field`: an `Absorbed`
observation whose forward cell is already known `Empty` marks the two
lateral neighbor cells `Empty`; otherwise it writes nothing. -/
def absorptionStep (grid : UncertainGrid) (t : Direction × Nat × Observation) :
    Except String UncertainGrid :=
  let (direction, shift, obs) := t
  if obs = LASER_ABSORBED then
    let l := LaserTip.new shift direction
    let center := l.forward.position
    if grid.get center = GridKnowledge.Empty then do
      let grid ← grid.set_safe (center + direction.clockwise.dxy) GridKnowledge.Empty
      grid.set_safe (center + direction.counter_clockwise.dxy) GridKnowledge.Empty
    else
      Except.ok grid
  else
    Except.ok grid

/-- `absorption_with_one_free_field`: one pass of the absorption rule
over the whole observation set. -/
def absorption_with_one_free_field (grid : UncertainGrid) (observations : Observations) :
    Except String UncertainGrid :=
  observations.iter.foldlM absorptionStep grid

/-- Loop body of `letter_finds_four_empty_spaces`: a letter-pass
observation marks its forward interior cell and that cell's four
orthogonal neighbors `Empty`. -/
def letterStep (grid : UncertainGrid) (t : Direction × Nat × Observation) :
    Except String UncertainGrid :=
  let (direction, shift, obs) := t
  if obs.is_letter then do
    let l := LaserTip.new shift direction
    let center := l.forward.position
    let grid ← grid.set_safe center GridKnowledge.Empty
    let grid ← grid.set_safe (center + I8Vec2.new 0 1) GridKnowledge.Empty
    let grid ← grid.set_safe (center + I8Vec2.new 0 (-1)) GridKnowledge.Empty
    let grid ← grid.set_safe (center + I8Vec2.new 1 0) GridKnowledge.Empty
    grid.set_safe (center + I8Vec2.new (-1) 0) GridKnowledge.Empty
  else
    Except.ok grid

/-- `letter_finds_four_empty_spaces`: one pass of the letter rule over
the whole observation set. -/
def letter_finds_four_empty_spaces (grid : UncertainGrid) (observations : Observations) :
    Except String UncertainGrid :=
  observations.iter.foldlM letterStep grid

/-- `solve_as_much_as_you_can`: starting from a fully `Unknown` grid,
apply the letter rule, then the reflection rule, then the absorption
rule, each one full pass over the same observation set. -/
def solve_as_much_as_you_can (observations : Observations) :
    Except String UncertainGrid := do
  let grid := UncertainGrid.default
  let grid ← letter_finds_four_empty_spaces grid observations
  let grid ← reflection_is_not_blocked grid observations
  absorption_with_one_free_field grid observations

/-- No cell of the grid (at any index of the backing array) holds `Atom`. -/
def noAtom (g : UncertainGrid) : Prop :=
  ∀ i j, g.atoms i j ≠ GridKnowledge.Atom

/-- A grid with a single `Atom` at `(0, 0)`, used as a concrete instance. -/
def gridWithAtom : UncertainGrid :=
  ⟨fun i j => if i = 0 ∧ j = 0 then GridKnowledge.Atom else GridKnowledge.Unknown⟩

/-- A concrete observation set: one letter-pass at shift 3 travelling
right, and one absorption at shift 2 travelling right, whose forward
cell `(0, 2)` is marked `Empty` by the letter rule. -/
def demoObservations : Observations :=
  [(Direction.Right, 3, Observation.letter 0),
   (Direction.Right, 2, LASER_ABSORBED)]

/-- A fuel-instrumented run of one rule pass: each observation visited
consumes one unit of fuel; `none` means the budget was exhausted before
the pass finished. -/
def runRuleFuel (step : UncertainGrid → Direction × Nat × Observation → Except String UncertainGrid) :
    Nat → UncertainGrid → List (Direction × Nat × Observation) →
      Option (Except String UncertainGrid)
  | _, g, [] => some (Except.ok g)
  | 0, _, _ :: _ => none
  | fuel + 1, g, t :: rest =>
    match step g t with
    | Except.error e => some (Except.error e)
    | Except.ok g' => runRuleFuel step fuel g' rest

/-- A fuel-instrumented `solve`: the three passes run in the source
order, each against the same per-pass step budget. -/
def solveFuel (fuel : Nat) (observations : Observations) :
    Option (Except String UncertainGrid) :=
  match runRuleFuel letterStep fuel UncertainGrid.default observations.iter with
  | none => none
  | some (Except.error e) => some (Except.error e)
  | some (Except.ok g) =>
    match runRuleFuel reflectionStep fuel g observations.iter with
    | none => none
    | some (Except.error e) => some (Except.error e)
    | some (Except.ok g') => runRuleFuel absorptionStep fuel g' observations.iter

/-- A grid in which the absorption demo's forward cell `(0, 2)` is
already known `Empty`, as if established by an earlier rule. -/
def demoAbsorptionGrid : UncertainGrid :=
  setRaw UncertainGrid.default (I8Vec2.new 0 2) GridKnowledge.Empty

/-- Write `k` raw at each coordinate of a list in turn. -/
def setRawList (g : UncertainGrid) (vs : List I8Vec2) (k : GridKnowledge) : UncertainGrid :=
  vs.foldl (fun g v => setRaw g v k) g

/-! ## Helper and invariant lemmas -/

theorem in_grid_iff (v : I8Vec2) :
    v.in_grid = true ↔ (0 ≤ v.x ∧ v.x < (GRID_SIZE : Int) ∧ 0 ≤ v.y ∧ v.y < (GRID_SIZE : Int)) := by
  simp [I8Vec2.in_grid]

theorem set_safe_ok (g : UncertainGrid) (v : I8Vec2) (k : GridKnowledge)
    (hk : k ≠ GridKnowledge.Unknown)
    (hprev : v.in_grid = true → g.get v = GridKnowledge.Unknown ∨ g.get v = k) :
    g.set_safe v k = Except.ok (setRaw g v k) := by
  unfold UncertainGrid.set_safe setRaw
  rw [if_neg hk]
  by_cases hv : v.in_grid = true
  · rw [if_pos hv, if_pos hv, if_neg]
    rcases hprev hv with h | h <;> simp [UncertainGrid.get] at h <;> simp [h]
  · rw [if_neg hv, if_neg hv]

theorem get_setRaw (g : UncertainGrid) (v : I8Vec2) (k : GridKnowledge)
    (w : I8Vec2) (hw : w.in_grid = true) :
    (setRaw g v k).get w = if w = v then k else g.get w := by
  unfold setRaw
  by_cases hv : v.in_grid = true
  · rw [if_pos hv]
    rw [in_grid_iff] at hw hv
    by_cases hwv : w = v
    · subst hwv
      simp [UncertainGrid.get]
    · rw [if_neg hwv]
      simp only [UncertainGrid.get]
      rw [if_neg]
      intro ⟨hx, hy⟩
      apply hwv
      cases w; cases v
      simp only [I8Vec2.mk.injEq]
      simp only at hx hy hw hv
      omega
  · rw [if_neg hv]
    rw [if_neg]
    intro hwv
    subst hwv
    exact hv hw

/-! ## Claims about the knowledge grid itself -/

/-- C8. A freshly constructed knowledge grid (`UncertainGrid::default`)
reports `Unknown` from `get` for every in-grid coordinate. -/
theorem default_grid_all_unknown (v : I8Vec2) (hv : v.in_grid = true) :
    UncertainGrid.default.get v = GridKnowledge.Unknown := rfl

theorem default_grid_all_unknown_witness :
    (I8Vec2.new 0 0).in_grid = true ∧
      UncertainGrid.default.get (I8Vec2.new 0 0) = GridKnowledge.Unknown :=
  ⟨by decide, default_grid_all_unknown (I8Vec2.new 0 0) (by decide)⟩

/-- C5. `set_safe` on an in-grid coordinate currently `Atom` with
argument `Empty` (and vice versa) aborts with the fatal-inconsistency
error; `set_safe` with argument `Unknown` aborts regardless of
coordinate; `set_safe` on an in-grid coordinate currently `Unknown` with
argument `Atom` or `Empty` stores the argument without error. -/
theorem set_safe_contract (g : UncertainGrid) (v : I8Vec2) (hv : v.in_grid = true) :
    (g.get v = GridKnowledge.Atom →
      g.set_safe v GridKnowledge.Empty =
        Except.error "Updating existing knowledge with inconsistent knowledge") ∧
    (g.get v = GridKnowledge.Empty →
      g.set_safe v GridKnowledge.Atom =
        Except.error "Updating existing knowledge with inconsistent knowledge") ∧
    (∀ w : I8Vec2, g.set_safe w GridKnowledge.Unknown =
        Except.error "Can not update with Unknown") ∧
    (g.get v = GridKnowledge.Unknown →
      ∀ k : GridKnowledge, (k = GridKnowledge.Atom ∨ k = GridKnowledge.Empty) →
        ∃ g', g.set_safe v k = Except.ok g' ∧ g'.get v = k) := by
  refine ⟨?_, ?_, ?_, ?_⟩
  · intro h
    simp only [UncertainGrid.get] at h
    simp [UncertainGrid.set_safe, hv, h]
  · intro h
    simp only [UncertainGrid.get] at h
    simp [UncertainGrid.set_safe, hv, h]
  · intro w
    simp [UncertainGrid.set_safe]
  · intro h k hk
    have hkU : k ≠ GridKnowledge.Unknown := by rcases hk with h' | h' <;> simp [h']
    refine ⟨setRaw g v k, set_safe_ok g v k hkU (fun _ => Or.inl h), ?_⟩
    rw [get_setRaw g v k v hv, if_pos rfl]

theorem set_safe_contract_witness :
    gridWithAtom.set_safe (I8Vec2.new 0 0) GridKnowledge.Empty =
        Except.error "Updating existing knowledge with inconsistent knowledge" ∧
      UncertainGrid.default.set_safe (I8Vec2.new 3 3) GridKnowledge.Unknown =
        Except.error "Can not update with Unknown" :=
  ⟨(set_safe_contract gridWithAtom (I8Vec2.new 0 0) (by decide)).1 (by decide),
   (set_safe_contract UncertainGrid.default (I8Vec2.new 0 0) (by decide)).2.2.1
      (I8Vec2.new 3 3)⟩

/-- C6. For every coordinate outside the grid and every knowledge
value `Atom` or `Empty`, `set_safe` leaves every in-grid cell unchanged
and does not trigger the fatal-inconsistency path. -/
theorem set_safe_out_of_grid (g : UncertainGrid) (v : I8Vec2) (k : GridKnowledge)
    (hv : v.in_grid = false) (hk : k = GridKnowledge.Atom ∨ k = GridKnowledge.Empty) :
    ∃ g', g.set_safe v k = Except.ok g' ∧
      ∀ w : I8Vec2, w.in_grid = true → g'.get w = g.get w := by
  have hkU : k ≠ GridKnowledge.Unknown := by rcases hk with h | h <;> simp [h]
  refine ⟨g, ?_, fun _ _ => rfl⟩
  simp [UncertainGrid.set_safe, hkU, hv]

theorem set_safe_out_of_grid_witness :
    ∃ g', UncertainGrid.default.set_safe (I8Vec2.new (-1) 0) GridKnowledge.Atom =
        Except.ok g' ∧
      ∀ w : I8Vec2, w.in_grid = true → g'.get w = UncertainGrid.default.get w :=
  set_safe_out_of_grid UncertainGrid.default (I8Vec2.new (-1) 0) GridKnowledge.Atom
    (by decide) (Or.inl rfl)

/-- C7. `set_safe` is idempotent: on an in-grid coordinate whose cell
is currently `Unknown` or already equal to the written value, writing
`k ∈ {Atom, Empty}` twice yields the same grid as writing it once, the
second application raising no error. -/
theorem set_safe_idempotent (g : UncertainGrid) (v : I8Vec2) (k : GridKnowledge)
    (hv : v.in_grid = true) (hk : k = GridKnowledge.Atom ∨ k = GridKnowledge.Empty)
    (hcur : g.get v = GridKnowledge.Unknown ∨ g.get v = k) :
    ∃ g', g.set_safe v k = Except.ok g' ∧ g'.set_safe v k = Except.ok g' := by
  have hkU : k ≠ GridKnowledge.Unknown := by rcases hk with h | h <;> simp [h]
  refine ⟨setRaw g v k, set_safe_ok g v k hkU (fun _ => hcur), ?_⟩
  have hget : (setRaw g v k).get v = k := by
    rw [get_setRaw g v k v hv, if_pos rfl]
  rw [set_safe_ok (setRaw g v k) v k hkU (fun _ => Or.inr hget)]
  congr 1
  unfold setRaw
  rw [if_pos hv, if_pos hv]
  congr 1
  funext i j
  by_cases hij : i = v.x.toNat ∧ j = v.y.toNat
  · simp [hij]
  · simp [hij]

theorem set_safe_idempotent_witness :
    ∃ g', UncertainGrid.default.set_safe (I8Vec2.new 2 3) GridKnowledge.Atom =
        Except.ok g' ∧
      g'.set_safe (I8Vec2.new 2 3) GridKnowledge.Atom = Except.ok g' :=
  set_safe_idempotent UncertainGrid.default (I8Vec2.new 2 3) GridKnowledge.Atom
    (by decide) (Or.inl rfl) (Or.inl rfl)

/-! ## Generic lemmas about the rule passes -/

theorem except_bind_ok {α β : Type} (x : Except String α) (f : α → Except String β) (b : β) :
    x >>= f = Except.ok b ↔ ∃ a, x = Except.ok a ∧ f a = Except.ok b := by
  cases x <;> simp [Bind.bind, Except.bind]

theorem foldlM_skip (step : UncertainGrid → Direction × Nat × Observation → Except String UncertainGrid)
    (L : List (Direction × Nat × Observation))
    (h : ∀ e ∈ L, ∀ g, step g e = Except.ok g) (g : UncertainGrid) :
    L.foldlM step g = Except.ok g := by
  induction L generalizing g with
  | nil => rfl
  | cons e L ih =>
    rw [List.foldlM_cons, h e (List.mem_cons_self e L) g]
    show L.foldlM step g = Except.ok g
    exact ih (fun e' he' g' => h e' (List.mem_cons_of_mem e he') g') g

theorem foldlM_skip_leading
    (step : UncertainGrid → Direction × Nat × Observation → Except String UncertainGrid)
    (A L : List (Direction × Nat × Observation))
    (h : ∀ e ∈ A, ∀ g, step g e = Except.ok g) (g : UncertainGrid) :
    (A ++ L).foldlM step g = L.foldlM step g := by
  induction A generalizing g with
  | nil => rfl
  | cons e A ih =>
    rw [List.cons_append, List.foldlM_cons, h e (List.mem_cons_self e A) g]
    show (A ++ L).foldlM step g = _
    exact ih (fun e' he' g' => h e' (List.mem_cons_of_mem e he') g') g

theorem foldlM_preserve (P : UncertainGrid → Prop)
    (step : UncertainGrid → Direction × Nat × Observation → Except String UncertainGrid)
    (hstep : ∀ g t g', step g t = Except.ok g' → P g → P g')
    (L : List (Direction × Nat × Observation)) (g g' : UncertainGrid)
    (h : L.foldlM step g = Except.ok g') (hg : P g) : P g' := by
  induction L generalizing g with
  | nil =>
    have : g = g' := by simpa [pure, Except.pure] using h
    exact this ▸ hg
  | cons e L ih =>
    rw [List.foldlM_cons, except_bind_ok] at h
    obtain ⟨g1, h1, h2⟩ := h
    exact ih g1 h2 (hstep g e g1 h1 hg)

theorem reflectionStep_skip (g : UncertainGrid) (d : Direction) (s : Nat)
    (o : Observation) (h : o ≠ LASER_REFLECTED) :
    reflectionStep g (d, s, o) = Except.ok g := by
  simp [reflectionStep, h]

theorem absorptionStep_skip (g : UncertainGrid) (d : Direction) (s : Nat)
    (o : Observation) (h : o ≠ LASER_ABSORBED) :
    absorptionStep g (d, s, o) = Except.ok g := by
  simp [absorptionStep, h]

theorem letterStep_skip (g : UncertainGrid) (d : Direction) (s : Nat)
    (o : Observation) (h : o.is_letter = false) :
    letterStep g (d, s, o) = Except.ok g := by
  simp [letterStep, h]

/-! ## The no-`Atom` invariant -/

theorem noAtom_default : noAtom UncertainGrid.default := by
  intro i j
  simp [UncertainGrid.default]

theorem noAtom_get {g : UncertainGrid} (hg : noAtom g) (v : I8Vec2) :
    g.get v ≠ GridKnowledge.Atom := hg v.x.toNat v.y.toNat

theorem noAtom_setRaw {g : UncertainGrid} (hg : noAtom g) (v : I8Vec2)
    (k : GridKnowledge) (hk : k ≠ GridKnowledge.Atom) : noAtom (setRaw g v k) := by
  intro i j
  unfold setRaw
  split
  · dsimp only
    split
    · exact hk
    · exact hg i j
  · exact hg i j

theorem set_safe_noAtom {g g' : UncertainGrid} {v : I8Vec2} {k : GridKnowledge}
    (hk : k ≠ GridKnowledge.Atom) (h : g.set_safe v k = Except.ok g')
    (hg : noAtom g) : noAtom g' := by
  unfold UncertainGrid.set_safe at h
  split at h
  · exact absurd h (by simp)
  · split at h
    · dsimp only at h
      split at h
      · exact absurd h (by simp)
      · injection h with h
        subst h
        intro i j
        dsimp only
        split
        · exact hk
        · exact hg i j
    · injection h with h
      subst h
      exact hg

theorem set_safe_empty_ok {g : UncertainGrid} (hg : noAtom g) (v : I8Vec2) :
    g.set_safe v GridKnowledge.Empty = Except.ok (setRaw g v GridKnowledge.Empty) := by
  apply set_safe_ok g v GridKnowledge.Empty (by simp)
  intro _
  cases h : g.get v with
  | Unknown => exact Or.inl rfl
  | Atom => exact absurd h (noAtom_get hg v)
  | Empty => exact Or.inr rfl

theorem reflectionStep_noAtom (g : UncertainGrid) (t : Direction × Nat × Observation)
    (g' : UncertainGrid) (h : reflectionStep g t = Except.ok g') (hg : noAtom g) :
    noAtom g' := by
  obtain ⟨d, s, o⟩ := t
  unfold reflectionStep at h
  dsimp only at h
  split at h
  · exact set_safe_noAtom (by simp) h hg
  · injection h with h
    subst h
    exact hg

theorem absorptionStep_noAtom (g : UncertainGrid) (t : Direction × Nat × Observation)
    (g' : UncertainGrid) (h : absorptionStep g t = Except.ok g') (hg : noAtom g) :
    noAtom g' := by
  obtain ⟨d, s, o⟩ := t
  unfold absorptionStep at h
  dsimp only at h
  split at h
  · split at h
    · rw [except_bind_ok] at h
      obtain ⟨g1, h1, h2⟩ := h
      exact set_safe_noAtom (by simp) h2 (set_safe_noAtom (by simp) h1 hg)
    · injection h with h
      subst h
      exact hg
  · injection h with h
    subst h
    exact hg

theorem letterStep_noAtom (g : UncertainGrid) (t : Direction × Nat × Observation)
    (g' : UncertainGrid) (h : letterStep g t = Except.ok g') (hg : noAtom g) :
    noAtom g' := by
  obtain ⟨d, s, o⟩ := t
  unfold letterStep at h
  dsimp only at h
  split at h
  · rw [except_bind_ok] at h
    obtain ⟨g1, h1, h⟩ := h
    rw [except_bind_ok] at h
    obtain ⟨g2, h2, h⟩ := h
    rw [except_bind_ok] at h
    obtain ⟨g3, h3, h⟩ := h
    rw [except_bind_ok] at h
    obtain ⟨g4, h4, h⟩ := h
    exact set_safe_noAtom (by simp) h
      (set_safe_noAtom (by simp) h4
        (set_safe_noAtom (by simp) h3
          (set_safe_noAtom (by simp) h2
            (set_safe_noAtom (by simp) h1 hg))))
  · injection h with h
    subst h
    exact hg

/-! ## Claims about `solve_as_much_as_you_can` -/

/-- C1. `solve_as_much_as_you_can` applies exactly the three rules,
each a single full pass over the whole observation set, sequentially
over the same grid starting fully `Unknown`, in the order letter →
reflection → absorption; consequently the absorption pass sees `Empty`
facts established by the earlier passes (demonstrated on
`demoObservations`, where absorption alone derives nothing but the full
pipeline marks the lateral cell `(0, 1)` `Empty`). -/
theorem solve_rule_order :
    (∀ obs : Observations, solve_as_much_as_you_can obs =
      letter_finds_four_empty_spaces UncertainGrid.default obs >>= fun g =>
        reflection_is_not_blocked g obs >>= fun g =>
          absorption_with_one_free_field g obs) ∧
    (∀ v : I8Vec2, UncertainGrid.default.get v = GridKnowledge.Unknown) ∧
    (solve_as_much_as_you_can demoObservations).map
        (fun g => g.get (I8Vec2.new 0 1)) = Except.ok GridKnowledge.Empty ∧
    (absorption_with_one_free_field UncertainGrid.default demoObservations).map
        (fun g => g.get (I8Vec2.new 0 1)) = Except.ok GridKnowledge.Unknown :=
  ⟨fun _ => rfl, fun _ => rfl, rfl, rfl⟩

/-- C10. For every observation set, a grid returned by `solve`
contains no `Atom` cell: all three rules only ever write `Empty`, so
every in-grid cell of the result is `Unknown` or `Empty`. -/
theorem solve_never_writes_atom (obs : Observations) (g' : UncertainGrid)
    (h : solve_as_much_as_you_can obs = Except.ok g')
    (v : I8Vec2) (hv : v.in_grid = true) :
    g'.get v = GridKnowledge.Unknown ∨ g'.get v = GridKnowledge.Empty := by
  have hno : noAtom g' := by
    unfold solve_as_much_as_you_can at h
    rw [except_bind_ok] at h
    obtain ⟨g1, h1, h⟩ := h
    rw [except_bind_ok] at h
    obtain ⟨g2, h2, h3⟩ := h
    have n1 : noAtom g1 :=
      foldlM_preserve noAtom letterStep letterStep_noAtom _ _ _ h1 noAtom_default
    have n2 : noAtom g2 :=
      foldlM_preserve noAtom reflectionStep reflectionStep_noAtom _ _ _ h2 n1
    exact foldlM_preserve noAtom absorptionStep absorptionStep_noAtom _ _ _ h3 n2
  cases hval : g'.get v with
  | Unknown => exact Or.inl rfl
  | Atom => exact absurd hval (noAtom_get hno v)
  | Empty => exact Or.inr rfl

theorem solve_never_writes_atom_witness :
    UncertainGrid.default.get (I8Vec2.new 0 0) = GridKnowledge.Unknown ∨
      UncertainGrid.default.get (I8Vec2.new 0 0) = GridKnowledge.Empty :=
  solve_never_writes_atom [] UncertainGrid.default rfl (I8Vec2.new 0 0) (by decide)

/-! ## Bounded-fuel refinement of `solve` (termination, C9) -/

theorem runRuleFuel_eq_foldlM
    (step : UncertainGrid → Direction × Nat × Observation → Except String UncertainGrid)
    (L : List (Direction × Nat × Observation)) (fuel : Nat) (g : UncertainGrid)
    (h : L.length ≤ fuel) :
    runRuleFuel step fuel g L = some (L.foldlM step g) := by
  induction L generalizing fuel g with
  | nil => cases fuel <;> rfl
  | cons t rest ih =>
    cases fuel with
    | zero => exact absurd h (by simp)
    | succ fuel =>
      rw [List.foldlM_cons]
      cases hs : step g t with
      | error e =>
        simp [runRuleFuel, hs, Bind.bind, Except.bind]
      | ok g' =>
        simp only [runRuleFuel, hs, Bind.bind, Except.bind]
        exact ih fuel g' (Nat.le_of_succ_le_succ h)

/-- C9. `solve` terminates for every finite observation set: it is
exactly three rule passes, each visiting at most one observation per
unit of fuel, so a per-pass budget equal to the number of observations
already suffices for the fuel-instrumented solver to finish and agree
with `solve_as_much_as_you_can`. -/
theorem solve_terminates_within_three_bounded_passes (obs : Observations) :
    solveFuel obs.iter.length obs = some (solve_as_much_as_you_can obs) := by
  unfold solveFuel solve_as_much_as_you_can
  unfold letter_finds_four_empty_spaces reflection_is_not_blocked
    absorption_with_one_free_field
  rw [runRuleFuel_eq_foldlM letterStep obs.iter obs.iter.length UncertainGrid.default
    (Nat.le_refl _)]
  cases h1 : obs.iter.foldlM letterStep UncertainGrid.default with
  | error e => simp [h1, Bind.bind, Except.bind]
  | ok g =>
    simp only [h1, Bind.bind, Except.bind]
    rw [runRuleFuel_eq_foldlM reflectionStep obs.iter obs.iter.length g (Nat.le_refl _)]
    cases h2 : obs.iter.foldlM reflectionStep g with
    | error e => simp [h2]
    | ok g' =>
      simp only [h2]
      exact runRuleFuel_eq_foldlM absorptionStep obs.iter obs.iter.length g' (Nat.le_refl _)

/-! ## The absorption rule on a single observation (C2) -/

/-- C2. For an observation classified `Absorbed`: if the current
knowledge of its forward interior cell is not `Empty` when the
absorption rule visits it, the observation produces no writes at all; if
that forward cell is already `Empty`, the rule writes `Empty` to exactly
the two lateral neighbor cells (forward cell plus the clockwise unit
offset, and plus the counter-clockwise unit offset) and to no other
cell.  (The success branch assumes the lateral cells hold no contrary
`Atom` evidence, which is the case throughout `solve`.) -/
theorem absorption_step_contract (g : UncertainGrid) (d : Direction) (s : Nat) :
    (g.get ((LaserTip.new s d).forward.position) ≠ GridKnowledge.Empty →
      absorptionStep g (d, s, LASER_ABSORBED) = Except.ok g) ∧
    (g.get ((LaserTip.new s d).forward.position) = GridKnowledge.Empty →
      (((LaserTip.new s d).forward.position + d.clockwise.dxy).in_grid = true →
        g.get ((LaserTip.new s d).forward.position + d.clockwise.dxy) ≠ GridKnowledge.Atom) →
      (((LaserTip.new s d).forward.position + d.counter_clockwise.dxy).in_grid = true →
        g.get ((LaserTip.new s d).forward.position + d.counter_clockwise.dxy) ≠ GridKnowledge.Atom) →
      ∃ g', absorptionStep g (d, s, LASER_ABSORBED) = Except.ok g' ∧
        ∀ w : I8Vec2, w.in_grid = true →
          g'.get w =
            if w = (LaserTip.new s d).forward.position + d.clockwise.dxy ∨
               w = (LaserTip.new s d).forward.position + d.counter_clockwise.dxy
            then GridKnowledge.Empty else g.get w) := by
  constructor
  · intro h
    simp [absorptionStep, h]
  · intro hc hcw hccw
    have h1 : g.set_safe ((LaserTip.new s d).forward.position + d.clockwise.dxy)
        GridKnowledge.Empty =
        Except.ok (setRaw g ((LaserTip.new s d).forward.position + d.clockwise.dxy)
          GridKnowledge.Empty) := by
      apply set_safe_ok _ _ _ (by simp)
      intro hin
      cases hval : g.get ((LaserTip.new s d).forward.position + d.clockwise.dxy) with
      | Unknown => exact Or.inl rfl
      | Atom => exact absurd hval (hcw hin)
      | Empty => exact Or.inr rfl
    have h2 : (setRaw g ((LaserTip.new s d).forward.position + d.clockwise.dxy)
        GridKnowledge.Empty).set_safe
          ((LaserTip.new s d).forward.position + d.counter_clockwise.dxy)
          GridKnowledge.Empty =
        Except.ok (setRaw
          (setRaw g ((LaserTip.new s d).forward.position + d.clockwise.dxy)
            GridKnowledge.Empty)
          ((LaserTip.new s d).forward.position + d.counter_clockwise.dxy)
          GridKnowledge.Empty) := by
      apply set_safe_ok _ _ _ (by simp)
      intro hin
      rw [get_setRaw _ _ _ _ hin]
      by_cases heq : (LaserTip.new s d).forward.position + d.counter_clockwise.dxy =
          (LaserTip.new s d).forward.position + d.clockwise.dxy
      · rw [if_pos heq]
        exact Or.inr rfl
      · rw [if_neg heq]
        cases hval : g.get ((LaserTip.new s d).forward.position + d.counter_clockwise.dxy) with
        | Unknown => exact Or.inl rfl
        | Atom => exact absurd hval (hccw hin)
        | Empty => exact Or.inr rfl
    refine ⟨setRaw
      (setRaw g ((LaserTip.new s d).forward.position + d.clockwise.dxy) GridKnowledge.Empty)
      ((LaserTip.new s d).forward.position + d.counter_clockwise.dxy)
      GridKnowledge.Empty, ?_, ?_⟩
    · simp [absorptionStep, hc, h1, h2, Bind.bind, Except.bind]
    · intro w hw
      rw [get_setRaw _ _ _ _ hw, get_setRaw _ _ _ _ hw]
      by_cases hA : w = (LaserTip.new s d).forward.position + d.counter_clockwise.dxy <;>
        by_cases hB : w = (LaserTip.new s d).forward.position + d.clockwise.dxy <;>
          simp [hA, hB]

theorem absorption_step_contract_witness :
    absorptionStep UncertainGrid.default (Direction.Right, 2, LASER_ABSORBED) =
        Except.ok UncertainGrid.default ∧
      ∃ g', absorptionStep demoAbsorptionGrid (Direction.Right, 2, LASER_ABSORBED) =
          Except.ok g' ∧
        ∀ w : I8Vec2, w.in_grid = true →
          g'.get w =
            if w = (LaserTip.new 2 Direction.Right).forward.position +
                     Direction.Right.clockwise.dxy ∨
               w = (LaserTip.new 2 Direction.Right).forward.position +
                     Direction.Right.counter_clockwise.dxy
            then GridKnowledge.Empty else demoAbsorptionGrid.get w :=
  ⟨(absorption_step_contract UncertainGrid.default Direction.Right 2).1 (by decide),
   (absorption_step_contract demoAbsorptionGrid Direction.Right 2).2
      (by decide) (by decide) (by decide)⟩

/-! ## Single-rule scenarios (C3, C4) -/

theorem get_setRawList (g : UncertainGrid) (vs : List I8Vec2) (k : GridKnowledge)
    (w : I8Vec2) (hw : w.in_grid = true) :
    (setRawList g vs k).get w = if w ∈ vs then k else g.get w := by
  induction vs generalizing g with
  | nil => simp [setRawList]
  | cons v vs ih =>
    show (setRawList (setRaw g v k) vs k).get w = _
    rw [ih (setRaw g v k)]
    rw [get_setRaw _ _ _ _ hw]
    by_cases h1 : w ∈ vs <;> by_cases h2 : w = v <;> simp [h1, h2]

theorem noAtom_other {o : Observation} (h : o = Observation.other) :
    o.is_letter = false ∧ o ≠ LASER_REFLECTED ∧ o ≠ LASER_ABSORBED := by
  subst h
  refine ⟨rfl, ?_, ?_⟩ <;> simp [LASER_REFLECTED, LASER_ABSORBED]

theorem letterStep_letter (g : UncertainGrid) (hg : noAtom g) (d : Direction)
    (s tag : Nat) :
    letterStep g (d, s, Observation.letter tag) =
      Except.ok (setRawList g
        [(LaserTip.new s d).forward.position,
         (LaserTip.new s d).forward.position + I8Vec2.new 0 1,
         (LaserTip.new s d).forward.position + I8Vec2.new 0 (-1),
         (LaserTip.new s d).forward.position + I8Vec2.new 1 0,
         (LaserTip.new s d).forward.position + I8Vec2.new (-1) 0]
        GridKnowledge.Empty) := by
  have n0 := hg
  have n1 := noAtom_setRaw n0 ((LaserTip.new s d).forward.position)
    GridKnowledge.Empty (by simp)
  have n2 := noAtom_setRaw n1 ((LaserTip.new s d).forward.position + I8Vec2.new 0 1)
    GridKnowledge.Empty (by simp)
  have n3 := noAtom_setRaw n2 ((LaserTip.new s d).forward.position + I8Vec2.new 0 (-1))
    GridKnowledge.Empty (by simp)
  have n4 := noAtom_setRaw n3 ((LaserTip.new s d).forward.position + I8Vec2.new 1 0)
    GridKnowledge.Empty (by simp)
  simp [letterStep, Observation.is_letter, setRawList,
    set_safe_empty_ok n0, set_safe_empty_ok n1, set_safe_empty_ok n2,
    set_safe_empty_ok n3, set_safe_empty_ok n4, Bind.bind, Except.bind]

theorem reflectionStep_reflected (g : UncertainGrid) (hg : noAtom g) (d : Direction)
    (s : Nat) :
    reflectionStep g (d, s, LASER_REFLECTED) =
      Except.ok (setRaw g ((LaserTip.new s d).forward.position) GridKnowledge.Empty) := by
  simp [reflectionStep, set_safe_empty_ok hg]

theorem default_get (w : I8Vec2) :
    UncertainGrid.default.get w = GridKnowledge.Unknown := rfl

/-- C3. For an observation set containing exactly one letter-pass
observation (at shift `s` in direction `d`) among otherwise
non-rule-triggering observations, `solve` marks the forward interior
cell and its four orthogonal neighbors `Empty`, and every other in-grid
cell of the returned grid is `Unknown`. -/
theorem letter_rule_scenario (d : Direction) (s : Nat) (hs : s < GRID_SIZE) (tag : Nat)
    (A B : Observations)
    (hA : ∀ e ∈ A, e.2.2 = Observation.other)
    (hB : ∀ e ∈ B, e.2.2 = Observation.other) :
    ∃ g', solve_as_much_as_you_can (A ++ (d, s, Observation.letter tag) :: B) =
        Except.ok g' ∧
      ∀ w : I8Vec2, w.in_grid = true →
        g'.get w =
          if w = (LaserTip.new s d).forward.position ∨
             w = (LaserTip.new s d).forward.position + I8Vec2.new 0 1 ∨
             w = (LaserTip.new s d).forward.position + I8Vec2.new 0 (-1) ∨
             w = (LaserTip.new s d).forward.position + I8Vec2.new 1 0 ∨
             w = (LaserTip.new s d).forward.position + I8Vec2.new (-1) 0
          then GridKnowledge.Empty else GridKnowledge.Unknown := by
  have hskipA : ∀ e ∈ A, ∀ g : UncertainGrid, letterStep g e = Except.ok g := by
    intro e he g
    obtain ⟨d', s', o⟩ := e
    exact letterStep_skip g d' s' o (noAtom_other (hA _ he)).1
  have hskipB : ∀ e ∈ B, ∀ g : UncertainGrid, letterStep g e = Except.ok g := by
    intro e he g
    obtain ⟨d', s', o⟩ := e
    exact letterStep_skip g d' s' o (noAtom_other (hB _ he)).1
  have hreflAll : ∀ e ∈ A ++ (d, s, Observation.letter tag) :: B,
      ∀ g : UncertainGrid, reflectionStep g e = Except.ok g := by
    intro e he g
    obtain ⟨d', s', o⟩ := e
    rcases List.mem_append.1 he with h | h
    · exact reflectionStep_skip g d' s' o (noAtom_other (hA _ h)).2.1
    · rcases List.mem_cons.1 h with h | h
      · injection h with h1 h2
        injection h2 with h2 h3
        subst h3
        exact reflectionStep_skip g d' s' _ (by simp [LASER_REFLECTED])
      · exact reflectionStep_skip g d' s' o (noAtom_other (hB _ h)).2.1
  have habsAll : ∀ e ∈ A ++ (d, s, Observation.letter tag) :: B,
      ∀ g : UncertainGrid, absorptionStep g e = Except.ok g := by
    intro e he g
    obtain ⟨d', s', o⟩ := e
    rcases List.mem_append.1 he with h | h
    · exact absorptionStep_skip g d' s' o (noAtom_other (hA _ h)).2.2
    · rcases List.mem_cons.1 h with h | h
      · injection h with h1 h2
        injection h2 with h2 h3
        subst h3
        exact absorptionStep_skip g d' s' _ (by simp [LASER_ABSORBED])
      · exact absorptionStep_skip g d' s' o (noAtom_other (hB _ h)).2.2
  have hletter : letter_finds_four_empty_spaces UncertainGrid.default
      (A ++ (d, s, Observation.letter tag) :: B) =
      Except.ok (setRawList UncertainGrid.default
        [(LaserTip.new s d).forward.position,
         (LaserTip.new s d).forward.position + I8Vec2.new 0 1,
         (LaserTip.new s d).forward.position + I8Vec2.new 0 (-1),
         (LaserTip.new s d).forward.position + I8Vec2.new 1 0,
         (LaserTip.new s d).forward.position + I8Vec2.new (-1) 0]
        GridKnowledge.Empty) := by
    unfold letter_finds_four_empty_spaces Observations.iter
    rw [foldlM_skip_leading letterStep A _ hskipA, List.foldlM_cons,
      letterStep_letter UncertainGrid.default noAtom_default d s tag]
    simp only [Bind.bind, Except.bind]
    exact foldlM_skip letterStep B hskipB _
  refine ⟨setRawList UncertainGrid.default
    [(LaserTip.new s d).forward.position,
     (LaserTip.new s d).forward.position + I8Vec2.new 0 1,
     (LaserTip.new s d).forward.position + I8Vec2.new 0 (-1),
     (LaserTip.new s d).forward.position + I8Vec2.new 1 0,
     (LaserTip.new s d).forward.position + I8Vec2.new (-1) 0]
    GridKnowledge.Empty, ?_, ?_⟩
  · have hrefl : ∀ g : UncertainGrid,
        reflection_is_not_blocked g (A ++ (d, s, Observation.letter tag) :: B) =
          Except.ok g :=
      fun g => foldlM_skip reflectionStep _ hreflAll g
    have habs : ∀ g : UncertainGrid,
        absorption_with_one_free_field g (A ++ (d, s, Observation.letter tag) :: B) =
          Except.ok g :=
      fun g => foldlM_skip absorptionStep _ habsAll g
    unfold solve_as_much_as_you_can
    simp only [hletter, hrefl, habs, Bind.bind, Except.bind]
  · intro w hw
    rw [get_setRawList _ _ _ _ hw]
    simp [default_get, List.mem_cons]

theorem letter_rule_scenario_witness :
    ∃ g', solve_as_much_as_you_can
        ([] ++ (Direction.Right, 3, Observation.letter 0) :: []) = Except.ok g' ∧
      ∀ w : I8Vec2, w.in_grid = true →
        g'.get w =
          if w = (LaserTip.new 3 Direction.Right).forward.position ∨
             w = (LaserTip.new 3 Direction.Right).forward.position + I8Vec2.new 0 1 ∨
             w = (LaserTip.new 3 Direction.Right).forward.position + I8Vec2.new 0 (-1) ∨
             w = (LaserTip.new 3 Direction.Right).forward.position + I8Vec2.new 1 0 ∨
             w = (LaserTip.new 3 Direction.Right).forward.position + I8Vec2.new (-1) 0
          then GridKnowledge.Empty else GridKnowledge.Unknown :=
  letter_rule_scenario Direction.Right 3 (by decide) 0 [] [] (by simp) (by simp)

/-- C4. For an observation set containing exactly one `Reflected`
observation (at shift `s` in direction `d`) among otherwise
non-rule-triggering observations, `solve` marks only the forward
interior cell `Empty`; every other in-grid cell remains `Unknown`. -/
theorem reflection_rule_scenario (d : Direction) (s : Nat) (hs : s < GRID_SIZE)
    (A B : Observations)
    (hA : ∀ e ∈ A, e.2.2 = Observation.other)
    (hB : ∀ e ∈ B, e.2.2 = Observation.other) :
    ∃ g', solve_as_much_as_you_can (A ++ (d, s, LASER_REFLECTED) :: B) =
        Except.ok g' ∧
      ∀ w : I8Vec2, w.in_grid = true →
        g'.get w =
          if w = (LaserTip.new s d).forward.position
          then GridKnowledge.Empty else GridKnowledge.Unknown := by
  have hletterAll : ∀ e ∈ A ++ (d, s, LASER_REFLECTED) :: B,
      ∀ g : UncertainGrid, letterStep g e = Except.ok g := by
    intro e he g
    obtain ⟨d', s', o⟩ := e
    rcases List.mem_append.1 he with h | h
    · exact letterStep_skip g d' s' o (noAtom_other (hA _ h)).1
    · rcases List.mem_cons.1 h with h | h
      · injection h with h1 h2
        injection h2 with h2 h3
        subst h3
        exact letterStep_skip g d' s' _ rfl
      · exact letterStep_skip g d' s' o (noAtom_other (hB _ h)).1
  have hskipA : ∀ e ∈ A, ∀ g : UncertainGrid, reflectionStep g e = Except.ok g := by
    intro e he g
    obtain ⟨d', s', o⟩ := e
    exact reflectionStep_skip g d' s' o (noAtom_other (hA _ he)).2.1
  have hskipB : ∀ e ∈ B, ∀ g : UncertainGrid, reflectionStep g e = Except.ok g := by
    intro e he g
    obtain ⟨d', s', o⟩ := e
    exact reflectionStep_skip g d' s' o (noAtom_other (hB _ he)).2.1
  have habsAll : ∀ e ∈ A ++ (d, s, LASER_REFLECTED) :: B,
      ∀ g : UncertainGrid, absorptionStep g e = Except.ok g := by
    intro e he g
    obtain ⟨d', s', o⟩ := e
    rcases List.mem_append.1 he with h | h
    · exact absorptionStep_skip g d' s' o (noAtom_other (hA _ h)).2.2
    · rcases List.mem_cons.1 h with h | h
      · injection h with h1 h2
        injection h2 with h2 h3
        subst h3
        exact absorptionStep_skip g d' s' _ (by simp [LASER_REFLECTED, LASER_ABSORBED])
      · exact absorptionStep_skip g d' s' o (noAtom_other (hB _ h)).2.2
  refine ⟨setRaw UncertainGrid.default ((LaserTip.new s d).forward.position)
    GridKnowledge.Empty, ?_, ?_⟩
  · have hletterOk : ∀ g : UncertainGrid,
        letter_finds_four_empty_spaces g (A ++ (d, s, LASER_REFLECTED) :: B) =
          Except.ok g :=
      fun g => foldlM_skip letterStep _ hletterAll g
    have habs : ∀ g : UncertainGrid,
        absorption_with_one_free_field g (A ++ (d, s, LASER_REFLECTED) :: B) =
          Except.ok g :=
      fun g => foldlM_skip absorptionStep _ habsAll g
    have hreflEq : reflection_is_not_blocked UncertainGrid.default
        (A ++ (d, s, LASER_REFLECTED) :: B) =
        Except.ok (setRaw UncertainGrid.default ((LaserTip.new s d).forward.position)
          GridKnowledge.Empty) := by
      unfold reflection_is_not_blocked Observations.iter
      rw [foldlM_skip_leading reflectionStep A _ hskipA, List.foldlM_cons,
        reflectionStep_reflected UncertainGrid.default noAtom_default d s]
      simp only [Bind.bind, Except.bind]
      exact foldlM_skip reflectionStep B hskipB _
    unfold solve_as_much_as_you_can
    simp only [hletterOk, hreflEq, habs, Bind.bind, Except.bind]
  · intro w hw
    rw [get_setRaw _ _ _ _ hw]
    simp [default_get]

theorem reflection_rule_scenario_witness :
    ∃ g', solve_as_much_as_you_can
        ([] ++ (Direction.Down, 5, LASER_REFLECTED) :: []) = Except.ok g' ∧
      ∀ w : I8Vec2, w.in_grid = true →
        g'.get w =
          if w = (LaserTip.new 5 Direction.Down).forward.position
          then GridKnowledge.Empty else GridKnowledge.Unknown :=
  reflection_rule_scenario Direction.Down 5 (by decide) [] [] (by simp) (by simp)

end LaserPuzzle
